import Mathlib

/-!
Verification development for the aster-farm-points trading bot.

The Python sources under `src/` are embedded shallowly over `ℚ` (exact
rational arithmetic in place of IEEE floats): pure functions become Lean
functions, the effectful bot methods become explicit functions of the
data they fetch (balances, order books, position snapshots) and of an
order-placing oracle returning `Except`, and the monitoring loop becomes
a fold over a finite trace of poll observations.
-/

namespace AsterFarm

/-- Python's built-in `round` (round half to even) restricted to exact
rational inputs, as used by `PositionCalculator.calculate_position_size`. -/
def pyRound (x : ℚ) : ℤ :=
  if x - (⌊x⌋ : ℚ) < 1 / 2 then ⌊x⌋
  else if (1 : ℚ) / 2 < x - (⌊x⌋ : ℚ) then ⌊x⌋ + 1
  else if ⌊x⌋ % 2 = 0 then ⌊x⌋ else ⌊x⌋ + 1

/-- Rounding to the nearest integer moves the value by at most `1/2`. -/
theorem pyRound_abs_sub_le (x : ℚ) : |(pyRound x : ℚ) - x| ≤ 1 / 2 := by
  have h0 : (⌊x⌋ : ℚ) ≤ x := Int.floor_le x
  have h1 : x < (⌊x⌋ : ℚ) + 1 := Int.lt_floor_add_one x
  unfold pyRound
  split_ifs with ha hb hc
  · rw [abs_le]; constructor <;> linarith
  · rw [abs_le]; push_cast; constructor <;> linarith
  · have hx : x - (⌊x⌋ : ℚ) = 1 / 2 := le_antisymm (not_lt.mp hb) (not_lt.mp ha)
    rw [abs_le]; constructor <;> linarith
  · have hx : x - (⌊x⌋ : ℚ) = 1 / 2 := le_antisymm (not_lt.mp hb) (not_lt.mp ha)
    rw [abs_le]; push_cast; constructor <;> linarith

/-- Rounding a non-negative rational yields a non-negative integer. -/
theorem pyRound_nonneg {x : ℚ} (hx : 0 ≤ x) : 0 ≤ pyRound x := by
  have h : (0 : ℤ) ≤ ⌊x⌋ := Int.floor_nonneg.mpr hx
  unfold pyRound
  split_ifs <;> omega

/-- Snapping `q` to the grid of multiples of `s` moves it by at most `s/2`. -/
theorem pyRound_mul_self (q s : ℚ) (hs : 0 < s) :
    |(pyRound (q / s) : ℚ) * s - q| ≤ s / 2 := by
  have h := pyRound_abs_sub_le (q / s)
  have hq : q / s * s = q := div_mul_cancel₀ q hs.ne'
  calc |(pyRound (q / s) : ℚ) * s - q|
      = |((pyRound (q / s) : ℚ) - q / s) * s| := by rw [sub_mul, hq]
    _ = |(pyRound (q / s) : ℚ) - q / s| * |s| := abs_mul _ _
    _ = |(pyRound (q / s) : ℚ) - q / s| * s := by rw [abs_of_pos hs]
    _ ≤ 1 / 2 * s := mul_le_mul_of_nonneg_right h hs.le
    _ = s / 2 := by ring

/-- `SymbolInfo` dataclass from `src/core/api_client.py`. -/
structure SymbolInfo where
  tick_size : ℚ
  step_size : ℚ
  min_qty : ℚ
  min_notional : ℚ
deriving DecidableEq

/-- The two constructor parameters of `PositionCalculator`
(`src/utils/position_calculator.py`). -/
structure PositionCalculator where
  liquidity_multiplier : ℚ
  balance_percentage : ℚ
deriving DecidableEq

/-- `PositionCalculator.calculate_position_size` from
`src/utils/position_calculator.py`, line by line. -/
def PositionCalculator.calculate_position_size (c : PositionCalculator)
    (symbol_info : SymbolInfo) (price available_balance : ℚ)
    (leverage : ℚ) (single_position : Bool) : ℚ :=
  let divider : ℚ := if single_position then 1 else 2
  let max_position_value := (available_balance * (c.balance_percentage / 100)) / divider
  let max_position_value_with_leverage := max_position_value * leverage
  let max_quantity := max_position_value_with_leverage / price
  let min_notional_qty := (symbol_info.min_notional * c.liquidity_multiplier) / price
  let min_required := max min_notional_qty symbol_info.min_qty
  let quantity := max min_required (min max_quantity max_quantity)
  (pyRound (quantity / symbol_info.step_size) : ℚ) * symbol_info.step_size

/-- Closed form of `calculate_position_size` with the redundant
`min max_quantity max_quantity` collapsed. -/
theorem calculate_position_size_eq (c : PositionCalculator) (si : SymbolInfo)
    (price balance lev : ℚ) (sp : Bool) :
    c.calculate_position_size si price balance lev sp =
      (pyRound ((max (max ((si.min_notional * c.liquidity_multiplier) / price) si.min_qty)
        (((balance * (c.balance_percentage / 100)) / (if sp then 1 else 2)) * lev / price)) /
          si.step_size) : ℚ) * si.step_size := by
  simp only [PositionCalculator.calculate_position_size, min_self]

/-- C1 (amended): for positive rules, price, balance and leverage, the
quantity returned by `calculate_position_size` is a non-negative integer
multiple of `step_size`, and the exchange floors hold up to half a
rounding step: `quantity ≥ min_qty - step_size/2` and
`quantity*price ≥ min_notional*liquidity_multiplier - price*step_size/2`.
Rounding to the nearest step can land below the exact floors, so the
unqualified bounds of the original claim fail (see the counterexample). -/
theorem calculate_position_size_step_legality (c : PositionCalculator) (si : SymbolInfo)
    (price balance lev : ℚ) (sp : Bool)
    (hstep : 0 < si.step_size) (hq : 0 < si.min_qty) (hn : 0 < si.min_notional)
    (hp : 0 < price) (hm : 0 < c.liquidity_multiplier)
    (hb : 0 < balance) (hl : 0 < lev) :
    (∃ k : ℕ, c.calculate_position_size si price balance lev sp = (k : ℚ) * si.step_size) ∧
    si.min_qty - si.step_size / 2 ≤ c.calculate_position_size si price balance lev sp ∧
    si.min_notional * c.liquidity_multiplier - price * si.step_size / 2 ≤
      c.calculate_position_size si price balance lev sp * price := by
  rw [calculate_position_size_eq]
  set Q := max (max ((si.min_notional * c.liquidity_multiplier) / price) si.min_qty)
      (((balance * (c.balance_percentage / 100)) / (if sp then 1 else 2)) * lev / price)
    with hQdef
  have hQq : si.min_qty ≤ Q := le_trans (le_max_right _ _) (le_max_left _ _)
  have hQn : (si.min_notional * c.liquidity_multiplier) / price ≤ Q :=
    le_trans (le_max_left _ _) (le_max_left _ _)
  have hQ0 : 0 ≤ Q := le_trans hq.le hQq
  have hy0 : 0 ≤ Q / si.step_size := div_nonneg hQ0 hstep.le
  have hlow : Q - si.step_size / 2 ≤ (pyRound (Q / si.step_size) : ℚ) * si.step_size := by
    have h := pyRound_mul_self Q si.step_size hstep
    rw [abs_le] at h
    linarith [h.1]
  refine ⟨⟨(pyRound (Q / si.step_size)).toNat, ?_⟩, ?_, ?_⟩
  · have hnn := pyRound_nonneg hy0
    have h3 : (((pyRound (Q / si.step_size)).toNat : ℕ) : ℚ) =
        ((pyRound (Q / si.step_size) : ℤ) : ℚ) := by
      exact_mod_cast congrArg (fun z : ℤ => (z : ℚ)) (Int.toNat_of_nonneg hnn)
    rw [h3]
  · linarith
  · have hrp : (Q - si.step_size / 2) * price ≤
        (pyRound (Q / si.step_size) : ℚ) * si.step_size * price :=
      mul_le_mul_of_nonneg_right hlow hp.le
    have hQp : (si.min_notional * c.liquidity_multiplier) / price * price ≤ Q * price :=
      mul_le_mul_of_nonneg_right hQn hp.le
    rw [div_mul_cancel₀ _ hp.ne'] at hQp
    nlinarith [hrp, hQp]

/-- Witness for `calculate_position_size_step_legality` at the concrete
input `price=100, balance=1000, leverage=10, hedge mode`. -/
theorem calculate_position_size_step_legality_witness :
    (∃ k : ℕ, PositionCalculator.calculate_position_size ⟨12/10, 50⟩
        ⟨1/1000, 1/1000, 1/1000, 5⟩ 100 1000 10 false = (k : ℚ) * (1/1000)) ∧
    (1:ℚ)/1000 - (1/1000) / 2 ≤ PositionCalculator.calculate_position_size ⟨12/10, 50⟩
        ⟨1/1000, 1/1000, 1/1000, 5⟩ 100 1000 10 false ∧
    (5:ℚ) * (12/10) - 100 * (1/1000) / 2 ≤ PositionCalculator.calculate_position_size ⟨12/10, 50⟩
        ⟨1/1000, 1/1000, 1/1000, 5⟩ 100 1000 10 false * 100 :=
  calculate_position_size_step_legality ⟨12/10, 50⟩ ⟨1/1000, 1/1000, 1/1000, 5⟩ 100 1000 10 false
    (by norm_num) (by norm_num) (by norm_num) (by norm_num) (by norm_num)
    (by norm_num) (by norm_num)

/-- C1 (counterexample): with all rules positive (`step_size=0.001`,
`min_qty=0.0014`, `min_notional=0.01`, multiplier `1.2`), price `100`,
balance `0.0001`, leverage `1`, hedge mode, the raw budget quantity is
far below the floor, yet the returned quantity `0.001` is strictly below
`min_qty = 0.0014`, refuting the claimed `quantity ≥ min_qty` bound. -/
theorem calculate_position_size_rounds_below_min_qty :
    PositionCalculator.calculate_position_size ⟨12/10, 50⟩
      ⟨1/1000, 1/1000, 14/10000, 1/100⟩ 100 (1/10000) 1 false = 1/1000 ∧
    (1:ℚ)/1000 < 14/10000 ∧
    ((1:ℚ)/10000 * ((50:ℚ)/100)) / 2 * 1 / 100 < 14/10000 := by
  refine ⟨?_, by norm_num, by norm_num⟩
  unfold PositionCalculator.calculate_position_size pyRound
  norm_num

/-- C2: the end-to-end sizing example: `price=100, balance=1000,
balance_percentage=50, leverage=10, legs=2, min_notional=5,
liquidity_multiplier=1.2, min_qty=0.001, step_size=0.001` yields `25`. -/
theorem calculate_position_size_example :
    PositionCalculator.calculate_position_size ⟨12/10, 50⟩
      ⟨1/1000, 1/1000, 1/1000, 5⟩ 100 1000 10 false = 25 := by
  unfold PositionCalculator.calculate_position_size pyRound
  norm_num

/-- C8 (amended): when the budget-derived raw quantity dominates the
minimum floor in hedge mode (so neither configuration is clamped by
`min_required`), sizing with `legs_per_account=2` is half of sizing with
`legs_per_account=1` up to step rounding: the difference from the exact
half is at most `3/4` of a step. When the floor clamps instead, both
configurations return the same floored quantity and the halving
relation fails (see the counterexample). -/
theorem calculate_position_size_halving (c : PositionCalculator) (si : SymbolInfo)
    (price balance lev : ℚ)
    (hstep : 0 < si.step_size) (hq : 0 < si.min_qty)
    (hclamp : max ((si.min_notional * c.liquidity_multiplier) / price) si.min_qty ≤
      ((balance * (c.balance_percentage / 100)) / 2) * lev / price) :
    |c.calculate_position_size si price balance lev false -
      c.calculate_position_size si price balance lev true / 2| ≤ 3 / 4 * si.step_size := by
  rw [calculate_position_size_eq, calculate_position_size_eq]
  set x := ((balance * (c.balance_percentage / 100)) / 2) * lev / price with hxdef
  have hdivf : ((balance * (c.balance_percentage / 100)) / (if false then (1:ℚ) else 2)) *
      lev / price = x := by
    simp
  have hdivt : ((balance * (c.balance_percentage / 100)) / (if true then (1:ℚ) else 2)) *
      lev / price = 2 * x := by
    simp; rw [hxdef]; ring
  rw [hdivf, hdivt]
  have hx0 : 0 < x := lt_of_lt_of_le hq (le_trans (le_max_right _ _) hclamp)
  have e1 : max (max ((si.min_notional * c.liquidity_multiplier) / price) si.min_qty) x = x :=
    max_eq_right hclamp
  have e2 : max (max ((si.min_notional * c.liquidity_multiplier) / price) si.min_qty) (2 * x) =
      2 * x :=
    max_eq_right (le_trans hclamp (by linarith))
  rw [e1, e2]
  have b1 := pyRound_mul_self x si.step_size hstep
  have b2 := pyRound_mul_self (2 * x) si.step_size hstep
  rw [abs_le] at b1 b2 ⊢
  constructor <;> linarith [b1.1, b1.2, b2.1, b2.2]

/-- Witness for `calculate_position_size_halving` at the unclamped
example input. -/
theorem calculate_position_size_halving_witness :
    |PositionCalculator.calculate_position_size ⟨12/10, 50⟩ ⟨1/1000, 1/1000, 1/1000, 5⟩
        100 1000 10 false -
      PositionCalculator.calculate_position_size ⟨12/10, 50⟩ ⟨1/1000, 1/1000, 1/1000, 5⟩
        100 1000 10 true / 2| ≤ 3 / 4 * (1/1000) :=
  calculate_position_size_halving ⟨12/10, 50⟩ ⟨1/1000, 1/1000, 1/1000, 5⟩ 100 1000 10
    (by norm_num) (by norm_num) (by norm_num [max_le_iff])

/-- C8 (counterexample): with `min_notional=1000` dominating a small
budget (`price=100, balance=1, leverage=1`), both divider settings are
clamped to the same floor: both sizes are `12`, so the `legs=2` size is
`6` away from half the `legs=1` size — six thousand steps, not a
step-rounding artifact. -/
theorem calculate_position_size_halving_fails_when_clamped :
    PositionCalculator.calculate_position_size ⟨12/10, 50⟩
      ⟨1/100, 1/1000, 1/1000, 1000⟩ 100 1 1 false = 12 ∧
    PositionCalculator.calculate_position_size ⟨12/10, 50⟩
      ⟨1/100, 1/1000, 1/1000, 1000⟩ 100 1 1 true = 12 ∧
    |PositionCalculator.calculate_position_size ⟨12/10, 50⟩
        ⟨1/100, 1/1000, 1/1000, 1000⟩ 100 1 1 false -
      PositionCalculator.calculate_position_size ⟨12/10, 50⟩
        ⟨1/100, 1/1000, 1/1000, 1000⟩ 100 1 1 true / 2| = 6 := by
  have h1 : PositionCalculator.calculate_position_size ⟨12/10, 50⟩
      ⟨1/100, 1/1000, 1/1000, 1000⟩ 100 1 1 false = 12 := by
    unfold PositionCalculator.calculate_position_size pyRound
    norm_num
  have h2 : PositionCalculator.calculate_position_size ⟨12/10, 50⟩
      ⟨1/100, 1/1000, 1/1000, 1000⟩ 100 1 1 true = 12 := by
    unfold PositionCalculator.calculate_position_size pyRound
    norm_num
  refine ⟨h1, h2, ?_⟩
  rw [h1, h2]
  norm_num

/-! ### Order placement and the base trading bot (`src/bots/base_trading_bot.py`) -/

/-- `positionSide` values used by the bots. -/
inductive PosSide where
  | LONG
  | SHORT
deriving DecidableEq

/-- `side` values used by the bots. -/
inductive OrderSide where
  | BUY
  | SELL
deriving DecidableEq

/-- The arguments of `AsterApiClient.place_order` that the bots vary
(`order_type` is always `"MARKET"`). -/
structure OrderReq where
  side : OrderSide
  position_side : PosSide
  quantity : ℚ
deriving DecidableEq

/-- Failure kinds raised inside the bot methods: the two explicit
`raise Exception(...)` guards, and opaque API/exchange failures. -/
inductive BotError where
  | noBalance
  | noSymbolInfo
  | apiError (code : ℕ)
deriving DecidableEq

/-- One entry of the `get_position_risk` response, as read by
`close_positions` (`positionAmt` and `positionSide`). -/
structure RiskPosition where
  positionAmt : ℚ
  positionSide : PosSide
deriving DecidableEq

/-- The order-placement loop inside `BaseTradingBot.close_positions`:
for every non-zero position place an opposing market order, stopping at
the first failure. -/
def closeOrdersLoop (place : OrderReq → Except BotError ℚ) :
    List RiskPosition → Except BotError Unit
  | [] => .ok ()
  | pos :: rest =>
    if pos.positionAmt ≠ 0 then
      match place ⟨if 0 < pos.positionAmt then .SELL else .BUY,
          pos.positionSide, |pos.positionAmt|⟩ with
      | .ok _ => closeOrdersLoop place rest
      | .error e => .error e
    else closeOrdersLoop place rest

/-- `BaseTradingBot.close_positions`: the whole body sits in a
`try/except` whose handler only prints the error; `silent` merely
suppresses the success log. `get_position_risk` is the (possibly
failing) fetch of positions, `place` the order oracle. -/
def close_positions (place : OrderReq → Except BotError ℚ)
    (get_position_risk : Except BotError (List RiskPosition))
    (silent : Bool) : Except BotError Unit :=
  match (do
      let positions ← get_position_risk
      closeOrdersLoop place positions : Except BotError Unit) with
  | .ok _ => .ok ()
  | .error _ => .ok ()

/-- C4 (counterexample): with an order oracle that always fails, one
open LONG position and `silent = false`, `close_positions` still
returns success even though its body failed — the failure is swallowed,
not propagated, contradicting the claimed `silent = false` behaviour. -/
theorem close_positions_swallows_with_silent_false :
    close_positions (fun _ => .error (.apiError 1)) (.ok [⟨1, .LONG⟩]) false = .ok () ∧
    closeOrdersLoop (fun _ => .error (.apiError 1)) [⟨1, .LONG⟩] = .error (.apiError 1) := by
  constructor
  · rfl
  · norm_num [closeOrdersLoop]

/-- C4 (amended): `close_positions` never raises for either value of
`silent`: every failure of the fetch or of a closing order is caught by
the surrounding `except` handler and only logged; `silent` only
controls the success log line. -/
theorem close_positions_never_raises (place : OrderReq → Except BotError ℚ)
    (get_position_risk : Except BotError (List RiskPosition)) (silent : Bool) :
    close_positions place get_position_risk silent = .ok () := by
  unfold close_positions
  split <;> rfl

/-- Result of `BaseTradingBot.open_hedged_positions` on success. -/
structure HedgeResult where
  quantity : ℚ
  long_price : ℚ
  short_price : ℚ
deriving DecidableEq

/-- The leg submitted first by `open_hedged_positions`, as selected by
the `random.choice` draw `open_long_first`. -/
def hedgeFirstLeg (open_long_first : Bool) (quantity : ℚ) : OrderReq :=
  if open_long_first then ⟨.BUY, .LONG, quantity⟩ else ⟨.SELL, .SHORT, quantity⟩

/-- The leg submitted second by `open_hedged_positions`. -/
def hedgeSecondLeg (open_long_first : Bool) (quantity : ℚ) : OrderReq :=
  if open_long_first then ⟨.SELL, .SHORT, quantity⟩ else ⟨.BUY, .LONG, quantity⟩

/-- `BaseTradingBot.open_hedged_positions`: size with the default
`single_position=False`, place both market legs in the randomized
order, and on any failure inside the `try` block issue
`close_positions(symbol, silent=True)` and re-raise. The second
component records whether that silent close-all was issued. -/
def open_hedged_positions (c : PositionCalculator) (usdt_balance : ℚ)
    (symbol_info : Option SymbolInfo) (mid_price leverage : ℚ)
    (open_long_first : Bool) (place : OrderReq → Except BotError ℚ) :
    Except BotError HedgeResult × Bool :=
  if usdt_balance = 0 then (.error .noBalance, false)
  else
    match symbol_info with
    | none => (.error .noSymbolInfo, false)
    | some si =>
      let quantity := c.calculate_position_size si mid_price usdt_balance leverage false
      let body : Except BotError HedgeResult :=
        if open_long_first then
          match place ⟨.BUY, .LONG, quantity⟩ with
          | .error e => .error e
          | .ok long_price =>
            match place ⟨.SELL, .SHORT, quantity⟩ with
            | .error e => .error e
            | .ok short_price => .ok ⟨quantity, long_price, short_price⟩
        else
          match place ⟨.SELL, .SHORT, quantity⟩ with
          | .error e => .error e
          | .ok short_price =>
            match place ⟨.BUY, .LONG, quantity⟩ with
            | .error e => .error e
            | .ok long_price => .ok ⟨quantity, long_price, short_price⟩
      match body with
      | .ok r => (.ok r, false)
      | .error e => (.error e, true)

/-- C7: if the first leg of the hedge pair places successfully and the
second leg fails, `open_hedged_positions` issues the silent close-all
(second component `true`) and re-raises the original error unchanged,
for both randomized leg orders. -/
theorem open_hedged_positions_cleanup_on_second_leg (c : PositionCalculator)
    (usdt_balance : ℚ) (si : SymbolInfo) (mid_price leverage : ℚ)
    (open_long_first : Bool) (place : OrderReq → Except BotError ℚ)
    (p : ℚ) (e : BotError)
    (hb : usdt_balance ≠ 0)
    (h1 : place (hedgeFirstLeg open_long_first
      (c.calculate_position_size si mid_price usdt_balance leverage false)) = .ok p)
    (h2 : place (hedgeSecondLeg open_long_first
      (c.calculate_position_size si mid_price usdt_balance leverage false)) = .error e) :
    open_hedged_positions c usdt_balance (some si) mid_price leverage
      open_long_first place = (.error e, true) := by
  cases open_long_first <;>
    simp_all [open_hedged_positions, hedgeFirstLeg, hedgeSecondLeg]

/-- Witness for `open_hedged_positions_cleanup_on_second_leg`: an
oracle that fills LONG legs and rejects SHORT legs, with the long leg
drawn first. -/
theorem open_hedged_positions_cleanup_witness :
    open_hedged_positions ⟨12/10, 50⟩ 1000 (some ⟨1/1000, 1/1000, 1/1000, 5⟩) 100 10 true
      (fun o => if o.position_side = PosSide.LONG then .ok 100 else .error (.apiError 7)) =
      (.error (.apiError 7), true) :=
  open_hedged_positions_cleanup_on_second_leg ⟨12/10, 50⟩ 1000 ⟨1/1000, 1/1000, 1/1000, 5⟩
    100 10 true
    (fun o => if o.position_side = PosSide.LONG then .ok 100 else .error (.apiError 7))
    100 (.apiError 7) (by norm_num) rfl rfl

/-! ### The dual-account coordinator (`src/bots/dual_account_bot.py`) -/

/-- `DualAccountBot.open_opposite_positions`, reduced to the data it
computes: both balances are read, the minimum is fed to the sizer with
`single_position=True`, and one identical-quantity market order is
built per account, the LONG/SHORT assignment decided by the
`random.choice` draw `long_on_first`. -/
def open_opposite_positions (c : PositionCalculator) (si : SymbolInfo)
    (mid_price balance1 balance2 leverage : ℚ) (long_on_first : Bool) :
    OrderReq × OrderReq :=
  let min_balance := min balance1 balance2
  let quantity := c.calculate_position_size si mid_price min_balance leverage true
  if long_on_first then
    (⟨.BUY, .LONG, quantity⟩, ⟨.SELL, .SHORT, quantity⟩)
  else
    (⟨.SELL, .SHORT, quantity⟩, ⟨.BUY, .LONG, quantity⟩)

/-- C6: the two orders built by `open_opposite_positions` carry the
same quantity, sized from `min(balance1, balance2)` with
`single_position=True`; that flag makes the divider `1`, i.e. the full
`balance * percentage` budget is used with no halving; and the two
accounts take opposite sides, one LONG and one SHORT. -/
theorem open_opposite_positions_equalized (c : PositionCalculator) (si : SymbolInfo)
    (mid_price balance1 balance2 leverage : ℚ) (long_on_first : Bool) :
    (open_opposite_positions c si mid_price balance1 balance2 leverage long_on_first).1.quantity =
      c.calculate_position_size si mid_price (min balance1 balance2) leverage true ∧
    (open_opposite_positions c si mid_price balance1 balance2 leverage long_on_first).2.quantity =
      c.calculate_position_size si mid_price (min balance1 balance2) leverage true ∧
    c.calculate_position_size si mid_price (min balance1 balance2) leverage true =
      (pyRound ((max (max ((si.min_notional * c.liquidity_multiplier) / mid_price) si.min_qty)
        ((min balance1 balance2 * (c.balance_percentage / 100)) * leverage / mid_price)) /
          si.step_size) : ℚ) * si.step_size ∧
    ((open_opposite_positions c si mid_price balance1 balance2 leverage
        long_on_first).1.position_side = PosSide.LONG ∧
      (open_opposite_positions c si mid_price balance1 balance2 leverage
        long_on_first).2.position_side = PosSide.SHORT ∨
     (open_opposite_positions c si mid_price balance1 balance2 leverage
        long_on_first).1.position_side = PosSide.SHORT ∧
      (open_opposite_positions c si mid_price balance1 balance2 leverage
        long_on_first).2.position_side = PosSide.LONG) := by
  refine ⟨?_, ?_, ?_, ?_⟩
  · cases long_on_first <;> rfl
  · cases long_on_first <;> rfl
  · rw [calculate_position_size_eq]
    norm_num
  · cases long_on_first
    · exact Or.inr ⟨rfl, rfl⟩
    · exact Or.inl ⟨rfl, rfl⟩

/-! ### The cycle loops (`run_volume_trading_cycle`, `run_dual_trading_cycle`) -/

/-- Mutable counters of `VolumeTradingBot`. -/
structure VolumeState where
  total_pnl : ℚ
  cycles_completed : ℕ
deriving DecidableEq

/-- How one volume cycle's `try` block resolves: the cycle settles with
a balance-delta PnL, or some awaited call raises. -/
inductive VolumeOutcome where
  | ok (cycle_pnl : ℚ)
  | err
deriving DecidableEq

/-- `VolumeTradingBot.run_volume_trading_cycle`
(`src/bots/volume_trading_bot.py`): the loss cap is checked on entry;
on success the cycle PnL is accumulated and the cap re-checked; an
exception inside the cycle returns `False` without accumulating. The
boolean is the `should_continue` value consumed by
`start_volume_trading`. -/
def run_volume_trading_cycle (max_loss_usdt : ℚ) (s : VolumeState)
    (o : VolumeOutcome) : VolumeState × Bool :=
  if |s.total_pnl| ≥ max_loss_usdt then (s, false)
  else
    match o with
    | .err => (s, false)
    | .ok cycle_pnl =>
      let s' : VolumeState := ⟨s.total_pnl + cycle_pnl, s.cycles_completed + 1⟩
      if |s'.total_pnl| ≥ max_loss_usdt then (s', false) else (s', true)

/-- Mutable counters of `DualAccountBot`. -/
structure DualState where
  total_pnl : ℚ
  account1_pnl : ℚ
  account2_pnl : ℚ
  cycles_completed : ℕ
deriving DecidableEq

/-- How one dual cycle's `try` block resolves: per-account balance
deltas, or an exception. -/
inductive DualOutcome where
  | ok (account1_cycle_pnl account2_cycle_pnl : ℚ)
  | err
deriving DecidableEq

/-- `DualAccountBot.run_dual_trading_cycle`
(`src/bots/dual_account_bot.py`): same skeleton as the volume variant,
with per-account PnL bookkeeping. -/
def run_dual_trading_cycle (max_loss_usdt : ℚ) (s : DualState)
    (o : DualOutcome) : DualState × Bool :=
  if |s.total_pnl| ≥ max_loss_usdt then (s, false)
  else
    match o with
    | .err => (s, false)
    | .ok d1 d2 =>
      let s' : DualState := ⟨s.total_pnl + (d1 + d2), s.account1_pnl + d1,
        s.account2_pnl + d2, s.cycles_completed + 1⟩
      if |s'.total_pnl| ≥ max_loss_usdt then (s', false) else (s', true)

/-- C3 (counterexample): a cycle that raises with `total_pnl = 0` and
`max_loss = 100` stops the loop (`should_continue = false`) while
`|total_pnl| < max_loss`, in both the volume and the dual variants — so
the loop does not stop *only if* the loss cap is reached. -/
theorem cycle_stops_below_cap_on_error :
    (run_volume_trading_cycle 100 ⟨0, 0⟩ .err).2 = false ∧
    |(run_volume_trading_cycle 100 ⟨0, 0⟩ .err).1.total_pnl| < 100 ∧
    (run_dual_trading_cycle 100 ⟨0, 0, 0, 0⟩ .err).2 = false ∧
    |(run_dual_trading_cycle 100 ⟨0, 0, 0, 0⟩ .err).1.total_pnl| < 100 := by
  norm_num [run_volume_trading_cycle, run_dual_trading_cycle]

/-- C3 (amended): in both variants the cycle loop stops iff
`|totalPnl| ≥ maxLoss` after the cycle settles *or* the cycle raised;
the cap is checked on entry — a state already at or past the cap stops
immediately with no state change — and re-checked right after the PnL
accumulation, with reaching the cap exactly a stop, not a continue. -/
theorem cycle_stop_iff_loss_cap_or_error (L : ℚ) (s : VolumeState) (o : VolumeOutcome)
    (t : DualState) (d : DualOutcome) :
    ((run_volume_trading_cycle L s o).2 = false ↔
      |(run_volume_trading_cycle L s o).1.total_pnl| ≥ L ∨ o = .err) ∧
    (|s.total_pnl| ≥ L → run_volume_trading_cycle L s o = (s, false)) ∧
    ((run_dual_trading_cycle L t d).2 = false ↔
      |(run_dual_trading_cycle L t d).1.total_pnl| ≥ L ∨ d = .err) ∧
    (|t.total_pnl| ≥ L → run_dual_trading_cycle L t d = (t, false)) := by
  refine ⟨?_, ?_, ?_, ?_⟩
  · unfold run_volume_trading_cycle
    split_ifs with h
    · simp [h]
    · cases o <;> simp_all
      split_ifs with h2 <;> simp_all
  · intro h
    unfold run_volume_trading_cycle
    simp [h]
  · unfold run_dual_trading_cycle
    split_ifs with h
    · simp [h]
    · cases d <;> simp_all
      split_ifs with h2 <;> simp_all
  · intro h
    unfold run_dual_trading_cycle
    simp [h]

/-- Witness for `cycle_stop_iff_loss_cap_or_error`: a state already at
`|total_pnl| = 150 ≥ 100` stops immediately with no accumulation, in
both variants. -/
theorem cycle_stop_iff_loss_cap_witness :
    run_volume_trading_cycle 100 ⟨150, 2⟩ (.ok 5) = (⟨150, 2⟩, false) ∧
    run_dual_trading_cycle 100 ⟨150, 1, 2, 3⟩ (.ok 1 2) = (⟨150, 1, 2, 3⟩, false) :=
  ⟨(cycle_stop_iff_loss_cap_or_error 100 ⟨150, 2⟩ (.ok 5) ⟨150, 1, 2, 3⟩ (.ok 1 2)).2.1
      (by norm_num),
   (cycle_stop_iff_loss_cap_or_error 100 ⟨150, 2⟩ (.ok 5) ⟨150, 1, 2, 3⟩ (.ok 1 2)).2.2.2
      (by norm_num)⟩

/-! ### Position monitoring (`DualAccountBot.monitor_positions`) -/

/-- The position info dict built by `open_opposite_positions` for each
account. -/
structure PositionInfo where
  quantity : ℚ
  entry_price : ℚ
  side : PosSide
deriving DecidableEq

/-- One entry of `BaseTradingBot.get_position_details`. -/
structure PositionDetail where
  side : PosSide
  amount : ℚ
  entry_price : ℚ
  unrealized_pnl : ℚ
  margin : ℚ
deriving DecidableEq

/-- `DualAccountBot.calculate_position_deviation`: returns `0` for a
zero initial margin, otherwise `abs(pnl / initial_margin) * 100`. -/
def calculate_position_deviation (position : PositionDetail)
    (initial_margin : ℚ) : ℚ :=
  if initial_margin = 0 then 0
  else |position.unrealized_pnl / initial_margin| * 100

/-- The per-account deviation scan inside the monitor loop: some active
position on the tracked side has deviation at or past the limit. -/
def deviationTrigger (max_position_deviation_percent : ℚ) (side : PosSide)
    (initial_margin : ℚ) (positions : List PositionDetail) : Bool :=
  positions.any fun pos =>
    decide (pos.side = side) &&
      decide (calculate_position_deviation pos initial_margin ≥
        max_position_deviation_percent)

/-- What the monitor loop sees on one 1-second poll: both accounts'
active positions and the elapsed time since the loop started. -/
structure MonitorObs where
  positions1 : List PositionDetail
  positions2 : List PositionDetail
  elapsed : ℚ
deriving DecidableEq

/-- One iteration of the `while True` body of `monitor_positions`:
`some stop` when an exit fires, `none` to keep polling. The branch
order matches the source: vanished positions, account-1 deviation,
account-2 deviation, positive combined PnL, hold-time expiry. -/
def monitorStep (max_position_deviation_percent : ℚ) (side1 side2 : PosSide)
    (margin1 margin2 hold_time : ℚ) (o : MonitorObs) : Option Bool :=
  if o.positions1 = [] ∨ o.positions2 = [] then some true
  else if deviationTrigger max_position_deviation_percent side1 margin1 o.positions1 then
    some true
  else if deviationTrigger max_position_deviation_percent side2 margin2 o.positions2 then
    some true
  else if 0 < (o.positions1.map PositionDetail.unrealized_pnl).sum +
      (o.positions2.map PositionDetail.unrealized_pnl).sum then some true
  else if o.elapsed ≥ hold_time then some true
  else none

/-- The monitor loop run over a finite trace of polls; `none` means the
trace ended with the loop still polling. -/
def monitorGo (max_position_deviation_percent : ℚ) (side1 side2 : PosSide)
    (margin1 margin2 hold_time : ℚ) : List MonitorObs → Option Bool
  | [] => none
  | o :: rest =>
    match monitorStep max_position_deviation_percent side1 side2 margin1 margin2
        hold_time o with
    | some b => some b
    | none => monitorGo max_position_deviation_percent side1 side2 margin1 margin2
        hold_time rest

/-- `DualAccountBot.monitor_positions`: the initial margins are
computed once, from each position's open quantity and entry price over
the leverage, before the loop starts, and held fixed for every poll.
`hold_time` is the value drawn by `random.randint(min_hold_time_sec,
max_hold_time_sec)`. -/
def monitor_positions (max_position_deviation_percent : ℚ)
    (position1_info position2_info : PositionInfo) (leverage hold_time : ℚ)
    (obss : List MonitorObs) : Option Bool :=
  let position1_margin := position1_info.quantity * position1_info.entry_price / leverage
  let position2_margin := position2_info.quantity * position2_info.entry_price / leverage
  monitorGo max_position_deviation_percent position1_info.side position2_info.side
    position1_margin position2_margin hold_time obss

/-- Every exit of the monitor loop body signals a stop. -/
theorem monitorStep_ne_some_false (maxDev : ℚ) (side1 side2 : PosSide)
    (m1 m2 ht : ℚ) (o : MonitorObs) :
    monitorStep maxDev side1 side2 m1 m2 ht o ≠ some false := by
  unfold monitorStep
  split_ifs <;> simp

/-- The monitor run never returns `some false`. -/
theorem monitorGo_ne_some_false (maxDev : ℚ) (side1 side2 : PosSide)
    (m1 m2 ht : ℚ) (obss : List MonitorObs) :
    monitorGo maxDev side1 side2 m1 m2 ht obss ≠ some false := by
  induction obss with
  | nil => simp [monitorGo]
  | cons o rest ih =>
    unfold monitorGo
    have h := monitorStep_ne_some_false maxDev side1 side2 m1 m2 ht o
    match hs : monitorStep maxDev side1 side2 m1 m2 ht o with
    | some b =>
      cases b
      · exact absurd hs h
      · simp
    | none => simpa using ih

/-- If the loop body fires at some poll of the trace, the run stops
with `some true` (at that poll or an earlier one). -/
theorem monitorGo_stops (maxDev : ℚ) (side1 side2 : PosSide) (m1 m2 ht : ℚ)
    (pre post : List MonitorObs) (o : MonitorObs)
    (h : (monitorStep maxDev side1 side2 m1 m2 ht o).isSome) :
    monitorGo maxDev side1 side2 m1 m2 ht (pre ++ o :: post) = some true := by
  induction pre with
  | nil =>
    rw [List.nil_append]
    unfold monitorGo
    match hs : monitorStep maxDev side1 side2 m1 m2 ht o with
    | some b =>
      cases b
      · exact absurd hs (monitorStep_ne_some_false maxDev side1 side2 m1 m2 ht o)
      · simp
    | none => rw [hs] at h; simp at h
  | cons p pre' ih =>
    rw [List.cons_append]
    unfold monitorGo
    match hs : monitorStep maxDev side1 side2 m1 m2 ht p with
    | some b =>
      cases b
      · exact absurd hs (monitorStep_ne_some_false maxDev side1 side2 m1 m2 ht p)
      · simp
    | none => simpa using ih

/-- For a positive margin the code's `abs(pnl / margin) * 100` is the
spec's `abs(pnl) / margin * 100`. -/
theorem calculate_position_deviation_pos (pos : PositionDetail) (m : ℚ) (hm : 0 < m) :
    calculate_position_deviation pos m = |pos.unrealized_pnl| / m * 100 := by
  unfold calculate_position_deviation
  rw [if_neg hm.ne', abs_div, abs_of_pos hm]

/-- C5: with positive open quantities, entry prices and leverage, the
monitor stops as soon as either account has an active position on its
tracked side whose deviation `|unrealized_pnl| / initial_margin * 100`
reaches `max_position_deviation_percent`, where each account's initial
margin is `quantity * entry_price / leverage` from the position-open
info — computed once before the loop and held fixed for every poll,
never recomputed from live prices. -/
theorem monitor_stops_on_deviation (maxDev : ℚ)
    (position1_info position2_info : PositionInfo) (lev ht : ℚ)
    (pre post : List MonitorObs) (o : MonitorObs)
    (hlev : 0 < lev)
    (hq1 : 0 < position1_info.quantity) (he1 : 0 < position1_info.entry_price)
    (hq2 : 0 < position2_info.quantity) (he2 : 0 < position2_info.entry_price)
    (hcase :
      (∃ pos ∈ o.positions1, pos.side = position1_info.side ∧
        maxDev ≤ |pos.unrealized_pnl| /
          (position1_info.quantity * position1_info.entry_price / lev) * 100) ∨
      (∃ pos ∈ o.positions2, pos.side = position2_info.side ∧
        maxDev ≤ |pos.unrealized_pnl| /
          (position2_info.quantity * position2_info.entry_price / lev) * 100)) :
    monitor_positions maxDev position1_info position2_info lev ht (pre ++ o :: post) =
      some true := by
  have hm1 : 0 < position1_info.quantity * position1_info.entry_price / lev :=
    div_pos (mul_pos hq1 he1) hlev
  have hm2 : 0 < position2_info.quantity * position2_info.entry_price / lev :=
    div_pos (mul_pos hq2 he2) hlev
  unfold monitor_positions
  apply monitorGo_stops
  rcases hcase with h | h
  · have htrig : deviationTrigger maxDev position1_info.side
        (position1_info.quantity * position1_info.entry_price / lev) o.positions1 = true := by
      rcases h with ⟨pos, hmem, hside, hdev⟩
      rw [deviationTrigger, List.any_eq_true]
      refine ⟨pos, hmem, ?_⟩
      rw [Bool.and_eq_true, decide_eq_true_eq, decide_eq_true_eq]
      exact ⟨hside, by rw [calculate_position_deviation_pos pos _ hm1]; exact hdev⟩
    unfold monitorStep
    split_ifs <;> simp_all
  · have htrig : deviationTrigger maxDev position2_info.side
        (position2_info.quantity * position2_info.entry_price / lev) o.positions2 = true := by
      rcases h with ⟨pos, hmem, hside, hdev⟩
      rw [deviationTrigger, List.any_eq_true]
      refine ⟨pos, hmem, ?_⟩
      rw [Bool.and_eq_true, decide_eq_true_eq, decide_eq_true_eq]
      exact ⟨hside, by rw [calculate_position_deviation_pos pos _ hm2]; exact hdev⟩
    unfold monitorStep
    split_ifs <;> simp_all

/-- Witness for `monitor_stops_on_deviation`: the spec's example —
initial margin `10 * 100 / 10 = 100`, unrealized PnL `-25`, so
deviation `25 ≥ 20` — stops the monitor at the first poll. -/
theorem monitor_stops_on_deviation_witness :
    monitor_positions 20 ⟨10, 100, .LONG⟩ ⟨10, 100, .SHORT⟩ 10 300
      [⟨[⟨.LONG, 10, 100, -25, 100⟩], [⟨.SHORT, -10, 100, 25, 100⟩], 1⟩] = some true :=
  monitor_stops_on_deviation 20 ⟨10, 100, .LONG⟩ ⟨10, 100, .SHORT⟩ 10 300 [] []
    ⟨[⟨.LONG, 10, 100, -25, 100⟩], [⟨.SHORT, -10, 100, 25, 100⟩], 1⟩
    (by norm_num) (by norm_num) (by norm_num) (by norm_num) (by norm_num)
    (Or.inl ⟨⟨.LONG, 10, 100, -25, 100⟩, by norm_num, rfl, by norm_num⟩)

/-- C9: the monitor only ever signals a stop — every exit path of
`monitor_positions` returns `True` — and, provided the drawn hold time
is at most `max_hold_time_sec` (the contract of
`random.randint(min_hold_time_sec, max_hold_time_sec)`), any poll whose
elapsed time has reached `max_hold_time_sec` ends the loop even when no
deviation, positive-PnL or vanished-position condition ever fires. -/
theorem monitor_always_terminates (maxDev : ℚ)
    (position1_info position2_info : PositionInfo) (lev ht max_hold : ℚ)
    (obss : List MonitorObs) (hht : ht ≤ max_hold) :
    (∀ b, monitor_positions maxDev position1_info position2_info lev ht obss =
      some b → b = true) ∧
    (∀ pre o post, obss = pre ++ o :: post → ht ≤ o.elapsed →
      monitor_positions maxDev position1_info position2_info lev ht obss = some true) := by
  constructor
  · intro b hb
    cases b
    · exact absurd hb (monitorGo_ne_some_false maxDev position1_info.side
        position2_info.side
        (position1_info.quantity * position1_info.entry_price / lev)
        (position2_info.quantity * position2_info.entry_price / lev) ht obss)
    · rfl
  · intro pre o post heq hstop
    subst heq
    unfold monitor_positions
    apply monitorGo_stops
    unfold monitorStep
    split_ifs <;> simp_all

/-- Witness for `monitor_always_terminates`: a poll at elapsed `300`
with hold time `300` and no other condition firing stops the monitor
with `True`. -/
theorem monitor_always_terminates_witness :
    monitor_positions 20 ⟨10, 100, .LONG⟩ ⟨10, 100, .SHORT⟩ 10 300
      [⟨[⟨.LONG, 10, 100, -1, 100⟩], [⟨.SHORT, -10, 100, -1, 100⟩], 300⟩] = some true :=
  (monitor_always_terminates 20 ⟨10, 100, .LONG⟩ ⟨10, 100, .SHORT⟩ 10 300 300
      [⟨[⟨.LONG, 10, 100, -1, 100⟩], [⟨.SHORT, -10, 100, -1, 100⟩], 300⟩]
      (by norm_num)).2
    [] ⟨[⟨.LONG, 10, 100, -1, 100⟩], [⟨.SHORT, -10, 100, -1, 100⟩], 300⟩ [] rfl (by norm_num)

/-- C10: `calculate_position_deviation` is total at zero margin — it
returns `0` without dividing — and consequently, for any positive
deviation limit, a zero-margin position can never fire the monitor's
deviation stop. -/
theorem zero_margin_deviation_safe (pos : PositionDetail)
    (positions : List PositionDetail) (side : PosSide) (maxDev : ℚ)
    (h : 0 < maxDev) :
    calculate_position_deviation pos 0 = 0 ∧
    deviationTrigger maxDev side 0 positions = false := by
  constructor
  · simp [calculate_position_deviation]
  · rw [deviationTrigger, List.any_eq_false]
    intro x _
    simp [calculate_position_deviation, not_le.mpr h]

/-- Witness for `zero_margin_deviation_safe`: a zero-margin LONG
position with a large loss yields deviation `0` and no trigger at the
default `20`% limit. -/
theorem zero_margin_deviation_safe_witness :
    calculate_position_deviation ⟨.LONG, 1, 100, -500, 0⟩ 0 = 0 ∧
    deviationTrigger 20 PosSide.LONG 0 [⟨.LONG, 1, 100, -500, 0⟩] = false :=
  zero_margin_deviation_safe ⟨.LONG, 1, 100, -500, 0⟩ [⟨.LONG, 1, 100, -500, 0⟩]
    PosSide.LONG 20 (by norm_num)

end AsterFarm
